import Mathlib

/-!
Verification development for the aragon-cli repository: a shallow embedding
of the binary resolver, the `run` command's task pipeline, the `ensureWeb3`
connector helper, the `fetchClient` step, and the `Start IPFS` step, together
with theorems settling the spec's claims about them.
-/

namespace AragonCli

/-- A filesystem path, as the list of its segments from the root
(`"parent/node_modules/.bin/truff"` is `["parent", "node_modules", ".bin", "truff"]`). -/
abbrev Path := List String

/-- The candidate binary path checked at a directory:
`<dir>/node_modules/.bin/<name>`. -/
def binPath (dir : Path) (name : String) : Path :=
  dir ++ ["node_modules", ".bin", name]

/-- A directory segment carries the `@` scope marker when its first character
is `'@'` (a scoped-package directory such as `"@scope"`). -/
def isScopeSegment (seg : String) : Bool :=
  seg.data.head? == some '@'

/-- Modelled from the spec: the source file `src/util.js` defining
`getLocalBinary` is absent from the repository snapshot (only its test file
`packages/aragon-cli/test/util.test.js` is present), so the resolver is
modelled from the spec's words: "given an executable name and a starting
directory, check `<dir>/node_modules/.bin/<name>`; if absent, move to the
parent directory and retry, additionally accounting for scoped-package
directory nesting (an extra parent level when the immediate parent segment
begins with an `@` scope marker); terminate unsuccessfully at the filesystem
root."

`walkUp` performs that walk on the reversed segment list (deepest segment
first), so the recursion is structural. It returns the resolved path (if any)
together with the list of paths whose existence was checked, in order.
`fs` is the filesystem: `fs p = true` iff the path `p` exists. -/
def walkUp (fs : Path → Bool) (name : String) :
    List String → Option Path × List Path
  | [] =>
    let p := binPath [] name
    (if fs p then some p else none, [p])
  | seg :: rest =>
    let p := binPath (seg :: rest).reverse name
    if fs p then (some p, [p])
    else
      let next :=
        match rest with
        | [] => walkUp fs name []
        | par :: rest2 =>
          if isScopeSegment par then walkUp fs name rest2
          else walkUp fs name (par :: rest2)
      (next.1, p :: next.2)

/-- Modelled from the spec: the binary resolver. Resolves executable `name`
starting at directory `dir` (segments from the root), returning the found
`node_modules/.bin` path, or `none` when the walk reached the filesystem
root without finding one. -/
def getLocalBinary (fs : Path → Bool) (name : String) (dir : Path) :
    Option Path :=
  (walkUp fs name dir.reverse).1

/-- The list of paths whose existence the resolver checks, in order. -/
def getLocalBinaryChecks (fs : Path → Bool) (name : String) (dir : Path) :
    List Path :=
  (walkUp fs name dir.reverse).2

/-- A directory's immediate parent segment carries the `@` scope marker:
for `a/@s/b` the immediate parent segment of the start directory is `@s`. -/
def parentScoped (dir : Path) : Bool :=
  match dir.reverse with
  | _ :: par :: _ => isScopeSegment par
  | _ => false

/-! ## The `run` command's task pipeline (`src/src/commands/run.js`)

The pipeline is a `listr` task list executed sequentially; sub-task-lists are
flattened here in their execution order. Each task is embedded as the list of
asynchronous operations it awaits (in program order), whether those operations
are issued concurrently through `Promise.all`, and the fire-and-forget effects
it issues without awaiting them. -/

/-- One asynchronous operation awaited by a `run` task. -/
inductive Op
  /-- `deployContract(...)`, storing the address in `ctx.contracts[contract]`. -/
  | deployC (contract : String)
  /-- a read of `ctx.contracts[contract]`. -/
  | readAddr (contract : String)
  /-- an `acl.createPermission(...)` transaction for a role (from
  `setPermissions`, which issues one per `[who, _, what]` triple). -/
  | createPermission (role : String)
  /-- another contract method `.send`/`.call`. -/
  | contractCall (method : String)
  /-- `runTruffle(['compile'], ...)`. -/
  | truffleCompile
  /-- `new Web3(network.provider)`. -/
  | web3Create
  /-- `devchain.task({})`. -/
  | devchainTask
  /-- `web3.eth.getAccounts()`. -/
  | getAccounts
  /-- `startIPFSDaemon()`. -/
  | ipfsStartDaemon
  /-- `writeTruffleConfig({ ensAddress })`. -/
  | writeTruffleConfigOp
  /-- `publish.task(...)`. -/
  | publishTask
  /-- `clone(url, path, opts)`. -/
  | cloneRepo (url : String)
  /-- `execa('npm', ['install'], ...)`, awaited. -/
  | npmInstall
deriving DecidableEq, Repr

/-- A fire-and-forget effect: issued by a task without awaiting it. -/
inductive FireForget
  /-- `setTimeout(() => opn(url), delayMs)`. -/
  | browserOpen (url : String) (delayMs : Nat)
  /-- an `execa` subprocess whose promise the task does not return
  (`execa('npm', ['start'], ...)` in `Start wrapper`). -/
  | subprocessStart (cmd : String)
deriving DecidableEq, Repr

/-- A task of the `run` pipeline. -/
structure RunTask where
  name : String
  /-- operations the task awaits before it completes, in program order. -/
  awaited : List Op := []
  /-- `true` when the awaited operations are issued concurrently via
  `Promise.all` (they still all complete before the task does). -/
  parallel : Bool := false
  /-- effects issued without awaiting. -/
  unawaited : List FireForget := []
deriving DecidableEq, Repr

/-- `Compile contracts` (run.js line 84). -/
def compileContractsTask : RunTask :=
  { name := "Compile contracts", awaited := [.truffleCompile] }

/-- `Connect to the provided Ethereum network` (run.js line 90); the
operation inventory of the step (see `connectTask` for its branching). -/
def connectNetworkTask : RunTask :=
  { name := "Connect to the provided Ethereum network"
    awaited := [.web3Create, .devchainTask, .getAccounts] }

/-- `Start IPFS` (run.js line 106); see `startIPFSStep` for its branching. -/
def startIPFSInventoryTask : RunTask :=
  { name := "Start IPFS"
    awaited := [.ipfsStartDaemon]
    unawaited := [.browserOpen "https://ipfs.io/docs/install" 3000] }

/-- `Deploy base contracts` (run.js line 127): six `deployContract` calls
issued together through `Promise.all`. -/
def deployBaseContractsTask : RunTask :=
  { name := "Deploy base contracts"
    awaited := [.deployC "APMRegistry", .deployC "Repo",
                .deployC "ENSSubdomainRegistrar", .deployC "ENSFactory",
                .deployC "Kernel", .deployC "ACL"]
    parallel := true }

/-- `Deploy base DAO factory` (run.js line 153): reads `ctx.contracts['Kernel']`
and `ctx.contracts['ACL']` as constructor arguments, then deploys. -/
def deployDAOFactoryTask : RunTask :=
  { name := "Deploy base DAO factory"
    awaited := [.readAddr "Kernel", .readAddr "ACL", .deployC "DAOFactory"] }

/-- `Deploy APM registry factory` (run.js line 166). -/
def deployAPMRegistryFactoryTask : RunTask :=
  { name := "Deploy APM registry factory"
    awaited := [.readAddr "DAOFactory", .readAddr "APMRegistry",
                .readAddr "Repo", .readAddr "ENSSubdomainRegistrar",
                .readAddr "ENSFactory", .deployC "APMRegistryFactory"] }

/-- `Create APM registry` (run.js line 183): calls `newAPM` on the factory at
`ctx.contracts['APMRegistryFactory']`, chains two view calls, and finally
writes the resolved ENS address to the truffle configuration file. -/
def createAPMRegistryTask : RunTask :=
  { name := "Create APM registry"
    awaited := [.readAddr "APMRegistryFactory", .contractCall "newAPM",
                .contractCall "registrar", .contractCall "ens",
                .writeTruffleConfigOp] }

/-- `Create DAO` (run.js line 225). -/
def createDAOTask : RunTask :=
  { name := "Create DAO"
    awaited := [.readAddr "DAOFactory", .contractCall "newDAO",
                .contractCall "acl"] }

/-- `Set DAO permissions` (run.js line 251): `setPermissions` with one triple,
hence a `Promise.all` over one `createPermission` transaction. -/
def setDAOPermissionsTask : RunTask :=
  { name := "Set DAO permissions"
    awaited := [.createPermission "APP_MANAGER_ROLE"]
    parallel := true }

/-- `Deploy app code` (run.js line 258). -/
def deployAppCodeTask : RunTask :=
  { name := "Deploy app code", awaited := [.deployC "AppCode"] }

/-- `Publish app` (run.js line 266): reads `ctx.contracts['AppCode']` and
delegates to the publish command. -/
def publishAppTask : RunTask :=
  { name := "Publish app", awaited := [.readAddr "AppCode", .publishTask] }

/-- `Install app > Deploy proxy` (run.js line 285). -/
def deployProxyTask : RunTask :=
  { name := "Deploy proxy"
    awaited := [.readAddr "AppCode", .contractCall "newAppInstance"] }

/-- `Install app > Set permissions` (run.js line 304): `setPermissions` over
one triple per role in `module.roles`, issued through `Promise.all`. -/
def setAppPermissionsTask (roles : List String) : RunTask :=
  { name := "Set permissions"
    awaited := roles.map Op.createPermission
    parallel := true }

/-- `Open DAO > Download wrapper` (run.js line 328). -/
def downloadWrapperTask : RunTask :=
  { name := "Download wrapper"
    awaited := [.cloneRepo "https://github.com/aragon/aragon"] }

/-- `Open DAO > Install wrapper dependencies with npm` (run.js line 353). -/
def installWrapperDepsTask : RunTask :=
  { name := "Install wrapper dependencies with npm", awaited := [.npmInstall] }

/-- `Open DAO > Start wrapper` (run.js line 361): the `execa('npm', ['start'])`
promise is not returned from the task, so the subprocess is fire-and-forget. -/
def startWrapperTask : RunTask :=
  { name := "Start wrapper"
    unawaited := [.subprocessStart "npm start"] }

/-- `Open DAO > Open wrapper` (run.js line 382). -/
def openWrapperTask : RunTask :=
  { name := "Open wrapper"
    unawaited := [.browserOpen "http://localhost:3000/#/<daoAddress>" 2500] }

/-- The `run` pipeline, flattened in execution order; `roles` is
`module.roles` (the role identifiers from `arapp.json`). -/
def runTasks (roles : List String) : List RunTask :=
  [compileContractsTask, connectNetworkTask, startIPFSInventoryTask,
   deployBaseContractsTask, deployDAOFactoryTask, deployAPMRegistryFactoryTask,
   createAPMRegistryTask, createDAOTask, setDAOPermissionsTask,
   deployAppCodeTask, publishAppTask, deployProxyTask,
   setAppPermissionsTask roles, downloadWrapperTask, installWrapperDepsTask,
   startWrapperTask, openWrapperTask]

/-- The `ctx.contracts` entry an operation reads, if any. -/
def opRead : Op → Option String
  | .readAddr c => some c
  | _ => none

/-- The `ctx.contracts` entry an operation populates, if any. -/
def opWrite : Op → Option String
  | .deployC c => some c
  | _ => none

/-- The `ctx.contracts` entries a task consumes. -/
def taskReads (t : RunTask) : List String :=
  t.awaited.filterMap opRead

/-- The `ctx.contracts` entries a task populates. -/
def taskWrites (t : RunTask) : List String :=
  t.awaited.filterMap opWrite

/-- Checks, along the fixed task order, that every `ctx.contracts` entry a
task consumes was populated by an earlier task. -/
def readsOkayAux : List RunTask → List String → Bool
  | [], _ => true
  | t :: ts, written =>
    (taskReads t).all (fun c => written.contains c) &&
      readsOkayAux ts (written ++ taskWrites t)

/-- Whether an operation is a contract deployment or a permission-granting
transaction. -/
def isTxOp : Op → Bool
  | .deployC _ => true
  | .createPermission _ => true
  | _ => false

/-- The tasks that issue two or more deployment/permission transactions
concurrently (`Promise.all`). -/
def concurrentTxTasks (ts : List RunTask) : List String :=
  (ts.filter (fun t => t.parallel && 2 ≤ (t.awaited.filter isTxOp).length)).map
    RunTask.name

/-- How many times a task writes the truffle configuration file. -/
def taskTruffleWrites (t : RunTask) : Nat :=
  t.awaited.count Op.writeTruffleConfigOp

/-- The events of one task in the sequential runner's trace: the task's
awaited operations, tagged with the task's name. -/
def taskEvents (t : RunTask) : List (String × Op) :=
  t.awaited.map (fun o => (t.name, o))

/-- The sequential `listr` runner: each task runs to completion (its awaited
operations all finish) before the next task starts; the trace accumulates
task by task. -/
def runSeqAux : List RunTask → List (String × Op) → List (String × Op)
  | [], acc => acc
  | t :: ts, acc => runSeqAux ts (acc ++ taskEvents t)

/-- The trace of a full sequential run. -/
def runSeq (ts : List RunTask) : List (String × Op) :=
  runSeqAux ts []

/-! ## The network-connection step (`run.js` lines 89-104)

```
try {
  ctx.web3 = getWeb3()
  const connected = await ctx.web3.eth.net.isListening()
} catch (err) {
  await devchain.task({}).then(() => { ctx.web3 = getWeb3() })
}
ctx.accounts = await ctx.web3.eth.getAccounts()
```
The environment is abstracted by one bit: whether the configured endpoint
answers the `isListening` probe (the probe throws when it cannot be
reached). -/

/-- An event of the connection step. -/
inductive ConnectEvent
  /-- `new Web3(network.provider)`. -/
  | web3Create
  /-- `await web3.eth.net.isListening()`. -/
  | listenCheck
  /-- `await devchain.task({})` — boots the local development chain. -/
  | devchainStart
  /-- `await web3.eth.getAccounts()`. -/
  | accountsFetch
deriving DecidableEq, Repr

/-- The `try` block: constructs the web3 instance, then probes the endpoint.
Returns the events performed together with the block's outcome
(`Except.error` when the probe throws because the endpoint is unreachable). -/
def tryConnect (endpointUp : Bool) : List ConnectEvent × Except Unit Unit :=
  ([.web3Create, .listenCheck],
   if endpointUp then .ok () else .error ())

/-- The whole step: on a caught failure it awaits `devchain.task({})` and
re-creates the web3 instance; in every case it then fetches the accounts from
the connected node. Returns the event trace and whether the local development
chain was booted. -/
def connectTask (endpointUp : Bool) : List ConnectEvent × Bool :=
  let (evs, r) := tryConnect endpointUp
  match r with
  | .ok _ => (evs ++ [.accountsFetch], false)
  | .error _ => (evs ++ [.devchainStart, .web3Create, .accountsFetch], true)

/-! ## The `Start IPFS` step (`run.js` lines 105-122) -/

/-- The outcome of a `listr` step. -/
inductive StepResult
  /-- skipped, with the message returned by the `skip` callback. -/
  | skipped (msg : String)
  /-- the task function completed. -/
  | completed
  /-- the task function threw an error with this message. -/
  | failed (msg : String)
deriving DecidableEq, Repr

/-- An effect of the `Start IPFS` step. -/
inductive IPFSEffect
  /-- `await isIPFSRunning()`. -/
  | checkRunning
  /-- `await isIPFSInstalled()`. -/
  | checkInstalled
  /-- `await startIPFSDaemon()`. -/
  | daemonStart
  /-- `setTimeout(() => opn(url), delayMs)` — fire-and-forget. -/
  | scheduleBrowserOpen (url : String) (delayMs : Nat)
deriving DecidableEq, Repr

/-- The error message thrown when IPFS is not installed (whitespace of the
original template literal elided). -/
def ipfsRequiredMsg : String :=
  "Running your app requires IPFS. Opening install instructions in your browser"

/-- The step's `skip` callback: a returned string skips the task with that
message. -/
def startIPFSSkip (running : Bool) : Option String :=
  if running then some "IPFS daemon already running" else none

/-- The step's task function, reached only when not skipped: when IPFS is not
installed it schedules opening the install instructions and throws; otherwise
it starts the daemon. -/
def startIPFSBody (installed : Bool) : StepResult × List IPFSEffect :=
  if !installed then
    (.failed ipfsRequiredMsg,
     [.checkInstalled, .scheduleBrowserOpen "https://ipfs.io/docs/install" 3000])
  else
    (.completed, [.checkInstalled, .daemonStart])

/-- The whole step under `listr` semantics: evaluate `skip` first, then run
the task function only when not skipped. -/
def startIPFSStep (running installed : Bool) : StepResult × List IPFSEffect :=
  match startIPFSSkip running with
  | some msg => (.skipped msg, [.checkRunning])
  | none =>
    let (r, evs) := startIPFSBody installed
    (r, .checkRunning :: evs)

/-! ## The `ensureWeb3` connector helper (`src/unnamed/part_001`)

```
const ensureWeb3 = async (network) => {
  let web3
  try {
    web3 = new Web3(network)
    const connected = await ctx.web3.eth.net.isListening()
    if (connected) return web3
  } catch (err) {
    throw new Error(`Please execute aragon run before running this`)
  }
}
```
The identifier `ctx` is resolved against the scopes the helper closes over;
it is bound in none of them, so evaluating `ctx.web3` raises a
`ReferenceError`, which the `catch` converts into the generic error. -/

/-- An error raised while evaluating the `try` block of `ensureWeb3`. -/
inductive JsError
  /-- a `ReferenceError`: the identifier is not bound in any enclosing
  scope. -/
  | referenceError (ident : String)
  /-- `new Web3(network)` itself threw. -/
  | ctorFailure
deriving DecidableEq, Repr

/-- The identifiers bound in the scopes `ensureWeb3`'s body closes over: its
own locals and parameters (`web3`, `network`) and the module scope
(`devchain`, `Web3`, `ensureWeb3`). -/
def ensureWeb3Scope : List String :=
  ["web3", "network", "devchain", "Web3", "ensureWeb3"]

/-- Resolving an identifier: a `ReferenceError` when it is bound in no
enclosing scope. -/
def resolveIdent (scope : List String) (x : String) : Except JsError Unit :=
  if scope.contains x then .ok () else .error (.referenceError x)

/-- The `try` block of `ensureWeb3`: construct the web3 instance, evaluate
`ctx.web3.eth.net.isListening()` (which first resolves the identifier `ctx`),
and return the instance if connected (`some`), `undefined` (`none`)
otherwise. `ctorOk` is whether `new Web3(network)` succeeds; `listening` is
what the probe would answer if it were ever reached. -/
def ensureWeb3Try (ctorOk listening : Bool) : Except JsError (Option Unit) := do
  if !ctorOk then throw .ctorFailure
  resolveIdent ensureWeb3Scope "ctx"
  if listening then pure (some ()) else pure none

/-- The whole helper: any error in the `try` block is caught and replaced by
the generic error message. `Except.ok (some _)` would be a connected web3
instance; `Except.ok none` the implicit `undefined` return. -/
def ensureWeb3 (ctorOk listening : Bool) : Except String (Option Unit) :=
  match ensureWeb3Try ctorOk listening with
  | .ok v => .ok v
  | .error _ => .error "Please execute aragon run before running this"

/-! ## The `fetchClient` step (`src/unnamed/part_000`) -/

/-- The in-memory context fields `fetchClient` touches. -/
structure ClientCtx where
  clientFetch : Bool := false
  clientAvailable : Bool := false
  clientPath : Option String := none
deriving DecidableEq, Repr

/-- A filesystem effect of `fetchClient`. -/
inductive FetchEffect
  /-- `task.skip(msg)`. -/
  | taskSkip (msg : String)
  /-- `ensureDirSync(p)`. -/
  | ensureDir (p : String)
  /-- `copy(src, dst)`. -/
  | copyFiles (src dst : String)
deriving DecidableEq, Repr

/-- The prebuilt client files shipped inside `@aragon/aragen`. -/
def aragenClientFiles : String :=
  "@aragon/aragen/ipfs-cache/@aragon/aragon"

/-- `fetchClient(ctx, task, clientVersion)`: sets the three context fields
unconditionally and first, then either skips (when the version-specific cache
directory exists) or creates the build directory and copies the prebuilt
client into it. `home` is `os.homedir()`; `cacheExists` is
`existsSync(CLIENT_PATH)`. -/
def fetchClient (home version : String) (cacheExists : Bool) (ctx : ClientCtx) :
    ClientCtx × List FetchEffect :=
  let clientPath := home ++ "/.aragon/client-" ++ version
  let ctx := { ctx with clientFetch := true, clientAvailable := true,
                        clientPath := some clientPath }
  if cacheExists then
    (ctx, [.taskSkip "Client already fetched"])
  else
    let buildPath := clientPath ++ "/build"
    (ctx, [.ensureDir buildPath, .copyFiles aragenClientFiles buildPath])

/-! ## Theorems: the binary resolver (claims C1, C2, C3) -/

/-- Helper for the not-found theorem: if no directory whose segments form an
initial portion of the walked-over directory holds the binary, the walk
returns `none`. Stated with an explicit length bound to drive the strong
induction (the scoped skip removes two segments at once). -/
theorem walkUp_none_of_all (fs : Path → Bool) (name : String) :
    ∀ (n : Nat) (rev : List String), rev.length ≤ n →
      (∀ A B : Path, A ++ B = rev.reverse → fs (binPath A name) = false) →
      (walkUp fs name rev).1 = none := by
  intro n
  induction n with
  | zero =>
    intro rev hlen h
    have h0 : rev = [] := List.length_eq_zero.mp (Nat.le_zero.mp hlen)
    subst h0
    simp [walkUp, h [] [] rfl]
  | succ n ih =>
    intro rev hlen h
    rcases rev with _ | ⟨seg, rest⟩
    · simp [walkUp, h [] [] rfl]
    · have h1 : fs (binPath (seg :: rest).reverse name) = false :=
        h (seg :: rest).reverse [] (by simp)
      rcases rest with _ | ⟨par, rest2⟩
      · have h0 : fs (binPath [] name) = false := h [] [seg] (by simp)
        simp at h1
        simp [walkUp, h1, h0]
      · simp at h1
        by_cases hp : isScopeSegment par
        · rw [show (walkUp fs name (seg :: par :: rest2)).1
              = (walkUp fs name rest2).1 by simp [walkUp, h1, hp]]
          apply ih rest2 (by simp at hlen ⊢; omega)
          intro A B hab
          apply h A (B ++ [par, seg])
          rw [show (seg :: par :: rest2).reverse = rest2.reverse ++ [par, seg] by simp]
          rw [← hab, List.append_assoc]
        · rw [show (walkUp fs name (seg :: par :: rest2)).1
              = (walkUp fs name (par :: rest2)).1 by simp [walkUp, h1, hp]]
          apply ih (par :: rest2) (by simp at hlen ⊢; omega)
          intro A B hab
          apply h A (B ++ [seg])
          rw [show (seg :: par :: rest2).reverse = (par :: rest2).reverse ++ [seg] by simp]
          rw [← hab, List.append_assoc]

/-- **C1**: for every executable name, resolving from
`parent/node_modules/@scope/project_root` in a filesystem where the binary
exists only at `parent/node_modules/.bin/<name>` skips the scoped level,
returns `parent/node_modules/.bin/<name>`, and performs exactly three
existence checks. -/
theorem getLocalBinary_scoped_three_checks (name : String) :
    getLocalBinary (fun p => p == binPath ["parent"] name) name
        ["parent", "node_modules", "@scope", "project_root"]
      = some (binPath ["parent"] name) ∧
    (getLocalBinaryChecks (fun p => p == binPath ["parent"] name) name
        ["parent", "node_modules", "@scope", "project_root"]).length = 3 := by
  simp [getLocalBinary, getLocalBinaryChecks, walkUp, binPath, isScopeSegment]

/-- **C2, counterexample**: the claim's parent clause fails as stated. In the
filesystem where the binary exists exactly at `a/@s/node_modules/.bin/x`,
resolving `x` from `a/@s/b` does not return the parent's path
`a/@s/node_modules/.bin/x`: the `@`-scoped parent level is skipped without
being checked, and resolution fails. -/
theorem getLocalBinary_parent_cex :
    ¬(((binPath ["a", "@s", "b"] "x" == binPath ["a", "@s"] "x") = false) →
      ((binPath ["a", "@s"] "x" == binPath ["a", "@s"] "x") = true) →
      getLocalBinary (fun p => p == binPath ["a", "@s"] "x") "x" ["a", "@s", "b"]
        = some (binPath ["a", "@s"] "x")) := by
  decide

/-- **C2, amended**: for every executable name `name`, start directory `D`
and filesystem: if `D/node_modules/.bin/<name>` exists it is returned; and if
it does not exist, the immediate parent segment of `D` is not `@`-scoped, and
the parent `P = D.dropLast` has `P/node_modules/.bin/<name>`, then the
parent's path is returned. (The original claim omitted the scope proviso; by
`getLocalBinary_parent_cex` it fails when the parent level is `@`-scoped,
because that level is skipped unchecked.) -/
theorem getLocalBinary_nearest (fs : Path → Bool) (name : String) (D : Path) :
    (fs (binPath D name) = true → getLocalBinary fs name D = some (binPath D name)) ∧
    (parentScoped D = false → fs (binPath D name) = false →
      fs (binPath D.dropLast name) = true →
      getLocalBinary fs name D = some (binPath D.dropLast name)) := by
  constructor
  · intro h
    unfold getLocalBinary
    rcases hD : D.reverse with _ | ⟨seg, rest⟩
    · have hD0 : D = [] := by simpa using congrArg List.reverse hD
      subst hD0
      simp_all [walkUp]
    · have hrev : (seg :: rest).reverse = D := by rw [← hD, List.reverse_reverse]
      rw [walkUp.eq_def]
      simp [hrev, h]
  · intro hsc h1 h2
    unfold getLocalBinary
    rcases hD : D.reverse with _ | ⟨seg, rest⟩
    · have hD0 : D = [] := by simpa using congrArg List.reverse hD
      subst hD0
      simp_all
    · have hrev : (seg :: rest).reverse = D := by rw [← hD, List.reverse_reverse]
      rcases rest with _ | ⟨par, rest2⟩
      · have hD1 : D = [seg] := by simpa using hrev.symm
        subst hD1
        simp_all [walkUp]
      · unfold parentScoped at hsc
        rw [hD] at hsc
        simp at hsc
        have hdrop : (par :: rest2).reverse = D.dropLast := by
          rw [← hrev]
          simp [List.reverse_cons]
        rw [walkUp.eq_def]
        simp only [hrev, h1, Bool.false_eq_true, if_false, hsc]
        rw [walkUp.eq_def]
        simp [hdrop, h2]

/-- Witness for `getLocalBinary_nearest`: both clauses at concrete inputs —
the local lookup from `project_root`, and the parent lookup from
`parent/node_modules/project_root`. -/
theorem getLocalBinary_nearest_witness :
    getLocalBinary (fun p => p == binPath ["project_root"] "truff") "truff"
        ["project_root"]
      = some (binPath ["project_root"] "truff") ∧
    getLocalBinary (fun p => p == binPath ["parent", "node_modules"] "truff")
        "truff" ["parent", "node_modules", "project_root"]
      = some (binPath ["parent", "node_modules"] "truff") :=
  ⟨(getLocalBinary_nearest (fun p => p == binPath ["project_root"] "truff")
      "truff" ["project_root"]).1 (by decide),
   (getLocalBinary_nearest (fun p => p == binPath ["parent", "node_modules"] "truff")
      "truff" ["parent", "node_modules", "project_root"]).2
     (by decide) (by decide) (by decide)⟩

/-- **C3**: when no directory along the chain from the start directory up to
(and including) the filesystem root holds `node_modules/.bin/<name>`, the
walk terminates at the root and signals not-found (`none`); `getLocalBinary`
is a total function, so it cannot loop. -/
theorem getLocalBinary_not_found (fs : Path → Bool) (name : String) (dir : Path)
    (h : ∀ A B : Path, A ++ B = dir → fs (binPath A name) = false) :
    getLocalBinary fs name dir = none := by
  unfold getLocalBinary
  exact walkUp_none_of_all fs name dir.reverse.length dir.reverse le_rfl
    (by simpa using h)

/-- Witness for `getLocalBinary_not_found`: the empty filesystem, a concrete
start directory. -/
theorem getLocalBinary_not_found_witness :
    getLocalBinary (fun _ => false) "truff" ["parent", "node_modules", "project_root"]
      = none :=
  getLocalBinary_not_found (fun _ => false) "truff"
    ["parent", "node_modules", "project_root"] (fun _ _ _ => rfl)

/-! ## Theorems: the `run` pipeline (claims C4, C7, C8) -/

/-- The `Install app > Set permissions` task consumes no `ctx.contracts`
entry, whatever the configured roles. -/
theorem setAppPermissions_reads (roles : List String) :
    taskReads (setAppPermissionsTask roles) = [] := by
  simp [taskReads, setAppPermissionsTask, List.filterMap_map, Function.comp, opRead]

/-- The `Install app > Set permissions` task populates no `ctx.contracts`
entry, whatever the configured roles. -/
theorem setAppPermissions_writes (roles : List String) :
    taskWrites (setAppPermissionsTask roles) = [] := by
  simp [taskWrites, setAppPermissionsTask, List.filterMap_map, Function.comp, opWrite]

/-- The `Install app > Set permissions` task never writes the truffle
configuration file, whatever the configured roles. -/
theorem setAppPermissions_truffleWrites (roles : List String) :
    List.count Op.writeTruffleConfigOp (setAppPermissionsTask roles).awaited = 0 := by
  simp [setAppPermissionsTask, List.count_eq_zero, List.mem_map]

theorem setAppPermissions_parallel (roles : List String) :
    (setAppPermissionsTask roles).parallel = true := rfl

theorem setAppPermissions_name (roles : List String) :
    (setAppPermissionsTask roles).name = "Set permissions" := rfl

theorem setAppPermissions_unawaited (roles : List String) :
    (setAppPermissionsTask roles).unawaited = [] := rfl

/-- Every operation of the `Install app > Set permissions` task is a
permission-granting transaction, so the `Promise.all` batch has one entry
per configured role. -/
theorem setAppPermissions_txFilter (roles : List String) :
    ((setAppPermissionsTask roles).awaited.filter isTxOp).length = roles.length := by
  have h : (roles.map Op.createPermission).filter isTxOp = roles.map Op.createPermission :=
    List.filter_eq_self.mpr (by
      intro a ha
      obtain ⟨r, _, rfl⟩ := List.mem_map.mp ha
      rfl)
  simp [setAppPermissionsTask, h]

/-- The sequential runner's trace is the concatenation of the tasks' event
blocks in task order: a task's awaited operations all appear before any
operation of a later task. -/
theorem runSeqAux_eq (ts : List RunTask) :
    ∀ acc, runSeqAux ts acc = acc ++ (ts.map taskEvents).flatten := by
  induction ts with
  | nil => intro acc; simp [runSeqAux]
  | cons t ts ih => intro acc; simp [runSeqAux, ih]

/-- **C4**: under the fixed task order of the `run` pipeline, every
`ctx.contracts` address a task consumes was populated by an earlier task; in
particular the DAO factory deployment consumes exactly the Kernel and ACL
addresses, both populated by the base-contract step, and the APM registry
factory deployment consumes exactly the DAOFactory, APMRegistry, Repo,
ENSSubdomainRegistrar and ENSFactory addresses, all populated by prior
steps. -/
theorem run_contracts_populated_before_use (roles : List String) :
    readsOkayAux (runTasks roles) [] = true ∧
    taskReads deployDAOFactoryTask = ["Kernel", "ACL"] ∧
    ((taskReads deployDAOFactoryTask).all
      (fun c => (taskWrites deployBaseContractsTask).contains c)) = true ∧
    taskReads deployAPMRegistryFactoryTask
      = ["DAOFactory", "APMRegistry", "Repo", "ENSSubdomainRegistrar",
         "ENSFactory"] := by
  refine ⟨?_, by decide, by decide, by decide⟩
  simp [runTasks, readsOkayAux, setAppPermissions_reads, setAppPermissions_writes,
    compileContractsTask, connectNetworkTask, startIPFSInventoryTask,
    deployBaseContractsTask, deployDAOFactoryTask, deployAPMRegistryFactoryTask,
    createAPMRegistryTask, createDAOTask, setDAOPermissionsTask,
    deployAppCodeTask, publishAppTask, deployProxyTask,
    downloadWrapperTask, installWrapperDepsTask, startWrapperTask, openWrapperTask,
    taskReads, taskWrites, opRead, opWrite]
  intro x hx
  simp [setAppPermissionsTask] at hx
  obtain ⟨r, hr, rfl⟩ := hx
  simp

/-- **C7**: across the whole `run` pipeline, the truffle configuration file
is written exactly once, and the only task that writes it is
`Create APM registry`. -/
theorem run_truffle_config_written_once (roles : List String) :
    ((runTasks roles).map taskTruffleWrites).sum = 1 ∧
    ∀ t ∈ runTasks roles, taskTruffleWrites t ≠ 0 →
      t.name = "Create APM registry" := by
  constructor
  · simp [runTasks, setAppPermissions_truffleWrites, taskTruffleWrites,
      compileContractsTask, connectNetworkTask, startIPFSInventoryTask,
      deployBaseContractsTask, deployDAOFactoryTask, deployAPMRegistryFactoryTask,
      createAPMRegistryTask, createDAOTask, setDAOPermissionsTask,
      deployAppCodeTask, publishAppTask, deployProxyTask,
      downloadWrapperTask, installWrapperDepsTask, startWrapperTask, openWrapperTask]
  · intro t ht h
    simp [runTasks] at ht
    rcases ht with rfl|rfl|rfl|rfl|rfl|rfl|rfl|rfl|rfl|rfl|rfl|rfl|rfl|rfl|rfl|rfl|rfl <;>
      simp_all [taskTruffleWrites, setAppPermissions_truffleWrites,
        compileContractsTask, connectNetworkTask, startIPFSInventoryTask,
        deployBaseContractsTask, deployDAOFactoryTask, deployAPMRegistryFactoryTask,
        createAPMRegistryTask, createDAOTask, setDAOPermissionsTask,
        deployAppCodeTask, publishAppTask, deployProxyTask,
        downloadWrapperTask, installWrapperDepsTask, startWrapperTask, openWrapperTask]

/-- Witness for `run_truffle_config_written_once`, at one configured role and
at the `Create APM registry` task. -/
theorem run_truffle_config_written_once_witness :
    ((runTasks ["MANAGER_ROLE"]).map taskTruffleWrites).sum = 1 ∧
    createAPMRegistryTask.name = "Create APM registry" :=
  ⟨(run_truffle_config_written_once ["MANAGER_ROLE"]).1,
   (run_truffle_config_written_once ["MANAGER_ROLE"]).2 createAPMRegistryTask
     (by decide) (by decide)⟩

/-- **C8, counterexample**: the run pipeline is not free of intra-step
concurrency. `Deploy base contracts` issues its six contract deployments
concurrently through `Promise.all`, and the `Start wrapper` task launches
its `npm start` subprocess without awaiting it. -/
theorem run_concurrency_cex :
    concurrentTxTasks (runTasks ["EXAMPLE_ROLE"]) ≠ [] ∧
    concurrentTxTasks (runTasks ["EXAMPLE_ROLE"]) = ["Deploy base contracts"] ∧
    FireForget.subprocessStart "npm start"
      ∈ (runTasks ["EXAMPLE_ROLE"]).flatMap RunTask.unawaited := by
  decide

/-- **C8, amended**: the pipeline's tasks execute sequentially — the runner's
trace is the concatenation of the per-task event blocks in task order, so
each task's awaited operations complete before the next task begins — but
within a task the `Promise.all` batches (`Deploy base contracts` always, and
`Install app > Set permissions` when at least two roles are configured)
issue their deployment/permission transactions concurrently, and the
fire-and-forget effects are exactly the two delayed browser opens and the
`npm start` wrapper subprocess. -/
theorem run_sequencing (roles : List String) :
    runSeq (runTasks roles) = ((runTasks roles).map taskEvents).flatten ∧
    concurrentTxTasks (runTasks roles)
      = (if 2 ≤ roles.length then ["Deploy base contracts", "Set permissions"]
         else ["Deploy base contracts"]) ∧
    (runTasks roles).flatMap RunTask.unawaited
      = [.browserOpen "https://ipfs.io/docs/install" 3000,
         .subprocessStart "npm start",
         .browserOpen "http://localhost:3000/#/<daoAddress>" 2500] := by
  refine ⟨by simp [runSeq, runSeqAux_eq], ?_, ?_⟩
  · by_cases h2 : 2 ≤ roles.length <;>
      simp [concurrentTxTasks, runTasks, h2, setAppPermissions_txFilter, isTxOp,
        setAppPermissions_parallel, setAppPermissions_name,
        compileContractsTask, connectNetworkTask, startIPFSInventoryTask,
        deployBaseContractsTask, deployDAOFactoryTask, deployAPMRegistryFactoryTask,
        createAPMRegistryTask, createDAOTask, setDAOPermissionsTask,
        deployAppCodeTask, publishAppTask, deployProxyTask,
        downloadWrapperTask, installWrapperDepsTask, startWrapperTask, openWrapperTask]
  · simp [runTasks, setAppPermissions_unawaited,
      compileContractsTask, connectNetworkTask, startIPFSInventoryTask,
      deployBaseContractsTask, deployDAOFactoryTask, deployAPMRegistryFactoryTask,
      createAPMRegistryTask, createDAOTask, setDAOPermissionsTask,
      deployAppCodeTask, publishAppTask, deployProxyTask,
      downloadWrapperTask, installWrapperDepsTask, startWrapperTask, openWrapperTask]

/-! ## Theorems: the connection step (claim C5) -/

/-- **C5**: when the configured endpoint answers the probe, it is used as-is
(no development chain is booted) and the accounts are then fetched; when the
probe fails, the local development chain is booted, the connection is
re-established, and the accounts are then fetched. -/
theorem connectTask_fallback (endpointUp : Bool) :
    (endpointUp = true →
      connectTask endpointUp
        = ([.web3Create, .listenCheck, .accountsFetch], false)) ∧
    (endpointUp = false →
      connectTask endpointUp
        = ([.web3Create, .listenCheck, .devchainStart, .web3Create,
            .accountsFetch], true)) := by
  constructor <;> intro h <;> subst h <;> rfl

/-- Witness for `connectTask_fallback`: both branches at their concrete
environments. -/
theorem connectTask_fallback_witness :
    connectTask true = ([.web3Create, .listenCheck, .accountsFetch], false) ∧
    connectTask false
      = ([.web3Create, .listenCheck, .devchainStart, .web3Create,
          .accountsFetch], true) :=
  ⟨(connectTask_fallback true).1 rfl, (connectTask_fallback false).2 rfl⟩

/-! ## Theorems: the `ensureWeb3` helper (claim C6) -/

/-- **C6**: `ctx` is bound in no scope `ensureWeb3` closes over, so the `try`
block always throws before returning — either from the `Web3` construction
or from the `ReferenceError` on `ctx.web3` — and the `catch` converts every
such error into `Please execute aragon run before running this`; the helper
never returns a connected web3 instance. -/
theorem ensureWeb3_always_throws (ctorOk listening : Bool) :
    ensureWeb3 ctorOk listening
      = Except.error "Please execute aragon run before running this" := by
  cases ctorOk <;> rfl

/-! ## Theorems: the `Start IPFS` step (claim C9) -/

/-- **C9, counterexample**: when no IPFS daemon is running and IPFS is not
installed, the step does not start a daemon and does not complete: it throws
the install-instructions error (after scheduling the browser open), so the
workflow does not proceed with a running IPFS daemon. -/
theorem startIPFS_not_installed_cex :
    (startIPFSStep false false).1 = StepResult.failed ipfsRequiredMsg ∧
    ¬((startIPFSStep false false).1 = StepResult.completed) ∧
    IPFSEffect.daemonStart ∉ (startIPFSStep false false).2 := by
  decide

/-- **C9, amended**: when a daemon is already running the step is skipped
with `IPFS daemon already running`; when none is running and IPFS is
installed the step starts the daemon and completes; when none is running and
IPFS is not installed the step schedules opening the install instructions
and fails with `ipfsRequiredMsg` (it does not install IPFS). -/
theorem startIPFS_behavior (running installed : Bool) :
    (running = true →
      startIPFSStep running installed
        = (.skipped "IPFS daemon already running", [.checkRunning])) ∧
    (running = false → installed = true →
      startIPFSStep running installed
        = (.completed, [.checkRunning, .checkInstalled, .daemonStart])) ∧
    (running = false → installed = false →
      startIPFSStep running installed
        = (.failed ipfsRequiredMsg,
           [.checkRunning, .checkInstalled,
            .scheduleBrowserOpen "https://ipfs.io/docs/install" 3000])) := by
  refine ⟨fun h => ?_, fun h h' => ?_, fun h h' => ?_⟩ <;> subst h <;>
    first
    | rfl
    | (subst h'; rfl)

/-- Witness for `startIPFS_behavior`: all three environments. -/
theorem startIPFS_behavior_witness :
    startIPFSStep true false
      = (.skipped "IPFS daemon already running", [.checkRunning]) ∧
    startIPFSStep false true
      = (.completed, [.checkRunning, .checkInstalled, .daemonStart]) ∧
    startIPFSStep false false
      = (.failed ipfsRequiredMsg,
         [.checkRunning, .checkInstalled,
          .scheduleBrowserOpen "https://ipfs.io/docs/install" 3000]) :=
  ⟨(startIPFS_behavior true false).1 rfl,
   (startIPFS_behavior false true).2.1 rfl rfl,
   (startIPFS_behavior false false).2.2 rfl rfl⟩

/-! ## Theorems: the `fetchClient` step (claim C10) -/

/-- **C10**: every call to `fetchClient` — cache hit or not — sets
`ctx.clientFetch` and `ctx.clientAvailable` to `true` and `ctx.clientPath`
to the version-specific `<home>/.aragon/client-<version>` path; and when the
cache directory already exists the step only skips: it copies no files and
creates no directory. -/
theorem fetchClient_ctx_and_skip (home version : String) (cacheExists : Bool)
    (ctx : ClientCtx) :
    (fetchClient home version cacheExists ctx).1.clientFetch = true ∧
    (fetchClient home version cacheExists ctx).1.clientAvailable = true ∧
    (fetchClient home version cacheExists ctx).1.clientPath
      = some (home ++ "/.aragon/client-" ++ version) ∧
    (cacheExists = true →
      (fetchClient home version cacheExists ctx).2
        = [.taskSkip "Client already fetched"]) := by
  cases cacheExists <;> simp [fetchClient]

/-- Witness for `fetchClient_ctx_and_skip`: a concrete cache hit. -/
theorem fetchClient_ctx_and_skip_witness :
    (fetchClient "/home/user" "1.0.0" true {}).1.clientPath
      = some ("/home/user" ++ "/.aragon/client-" ++ "1.0.0") ∧
    (fetchClient "/home/user" "1.0.0" true {}).2
      = [.taskSkip "Client already fetched"] :=
  ⟨(fetchClient_ctx_and_skip "/home/user" "1.0.0" true {}).2.2.1,
   (fetchClient_ctx_and_skip "/home/user" "1.0.0" true {}).2.2.2 rfl⟩

end AragonCli
